import Mathlib

/-!
Shallow embedding of the weekly App Store analytics synchronization pipeline
(`weekly_sync.py`, `appstore_api.py`, `google_sheets.py`,
`firebase_analytics.py`) together with proofs about its claimed properties.

Strings are Lean `String`s, but the character-level operations the code needs
(lexicographic comparison, lower-casing, template substitution) are defined
here by structural recursion over `String.data` so that every definition
evaluates inside the kernel.
-/

namespace Indlovu

/-! ### Character and string primitives, following Python string semantics -/

/-- Lexicographic comparison of character lists by code point, exactly as
Python compares strings. -/
def listLe : List Char → List Char → Bool
  | [], _ => true
  | _ :: _, [] => false
  | a :: as, b :: bs =>
    if a.toNat < b.toNat then true
    else if b.toNat < a.toNat then false
    else listLe as bs

/-- Python string `<=` (code-point lexicographic order). -/
def strLeB (a b : String) : Bool := listLe a.data b.data

/-- ASCII lower-casing of one character, as Python `str.lower` acts on the
ASCII range used by the granularity names. -/
def charLower (c : Char) : Char :=
  if 'A' ≤ c ∧ c ≤ 'Z' then Char.ofNat (c.toNat + 32) else c

/-- The opening brace character of the `{g}` placeholder. -/
def lbrace : Char := Char.ofNat 123

/-- The closing brace character of the `{g}` placeholder. -/
def rbrace : Char := Char.ofNat 125

/-- Substitution of the `{g}` placeholder in a filename template,
mirroring Python `filename_tpl.format(g=...)` for the templates of the
report catalog. -/
def fmtG : List Char → List Char → List Char
  | [], _ => []
  | [a], _ => [a]
  | [a, b], _ => [a, b]
  | a :: b :: c :: rest, g =>
    if a = lbrace ∧ b = 'g' ∧ c = rbrace then g ++ fmtG rest g
    else a :: fmtG (b :: c :: rest) g

/-- `filename_tpl.format(g=granularity.lower())` from
`weekly_sync.WeeklySyncJob._download_reports`. -/
def formatTemplate (tpl g : String) : String :=
  ⟨fmtG tpl.data (g.data.map charLower)⟩

/-! ### The report catalog (`weekly_sync.REPORTS`) -/

/-- The fixed report catalog from `weekly_sync.py`: tuples of
(report id prefix string, granularities, filename template). -/
def REPORTS : List (String × List String × String) :=
  [("r3", ["DAILY"], "downloads_standard_{g}.csv"),
   ("r4", ["DAILY", "WEEKLY", "MONTHLY"], "downloads_detailed_{g}.csv"),
   ("r12", ["DAILY", "WEEKLY", "MONTHLY"], "purchases_standard_{g}.csv"),
   ("r6", ["DAILY", "WEEKLY", "MONTHLY"], "install_delete_standard_{g}.csv"),
   ("r8", ["DAILY", "WEEKLY", "MONTHLY"], "sessions_standard_{g}.csv"),
   ("r9", ["WEEKLY", "MONTHLY"], "sessions_detailed_{g}.csv"),
   ("r14", ["DAILY", "WEEKLY", "MONTHLY"], "discovery_standard_{g}.csv"),
   ("r15", ["DAILY", "WEEKLY", "MONTHLY"], "discovery_detailed_{g}.csv")]

/-- The (report id, granularity, filename) cells of one run, in traversal
order: the catalog × granularity cross-product, with
`report_id = f"{prefix}-{REQUEST_ID}"` constructed, not fetched. -/
def cellsOf (requestId : String) : List (String × String × String) :=
  REPORTS.flatMap fun r =>
    r.2.1.map fun g => (r.1 ++ "-" ++ requestId, g, formatTemplate r.2.2 g)

/-! ### The orchestrator loop (`weekly_sync.WeeklySyncJob._download_reports`)

One record of `self.downloaded`.  App Store records carry no `source` key
(`source = none`); secondary-analytics records carry `source = some
"firebase"`.  The human-readable `size_fmt` string is a pure rendering of
`size` and is elided. -/
structure OutcomeRec where
  filename : String
  size : Nat
  time : String
  oldest : String
  newest : String
  source : Option String
  deriving Repr, DecidableEq

/-- The observable result of one cell's processing, abstracting what the
remote hierarchy and filesystem do inside the cell's `try` block:
`raisesListing` — `get_instances` raises; `noInstances` — it returns `[]`;
`raisesDownload msg wroteFile` — any later exception in the cell
(`download_instance`, `stat`, file writes), where `wroteFile` records
whether the destination file had already been written; `noSegments` —
`download_instance` returns `None`; `success` — a file was materialized
with the given stat size, `get_date_range` result and timestamp. -/
inductive CellResult where
  | raisesListing (msg : String)
  | noInstances
  | raisesDownload (msg : String) (wroteFile : Bool)
  | noSegments
  | success (size : Nat) (oldest newest time : String)
  deriving Repr, DecidableEq

/-- Whether a cell result is the success case. -/
def CellResult.isSuccess : CellResult → Bool
  | .success _ _ _ _ => true
  | _ => false

/-- The one terminal log line each cell prints: `Saved:`, `No instances
available`, `No segments available`, or `Error: {e}`. -/
inductive CellEvent where
  | saved (filename : String) (size : Nat)
  | noInstances (filename : String)
  | noSegments (filename : String)
  | error (filename : String) (msg : String)
  deriving Repr, DecidableEq

/-- One iteration of the `for granularity in granularities` loop body:
returns (outcome appended to `self.downloaded` if any, terminal log line,
number of destination files written in this cell). -/
def processCell (env : String → String → CellResult)
    (c : String × String × String) : Option OutcomeRec × CellEvent × Nat :=
  match env c.1 c.2.1 with
  | .raisesListing m => (none, .error c.2.2 m, 0)
  | .noInstances => (none, .noInstances c.2.2, 0)
  | .raisesDownload m wroteFile => (none, .error c.2.2 m, if wroteFile then 1 else 0)
  | .noSegments => (none, .noSegments c.2.2, 0)
  | .success size oldest newest time =>
      (some ⟨c.2.2, size, time, oldest, newest, none⟩, .saved c.2.2 size, 1)

/-- The full download loop over a cell list: accumulates the appended
`self.downloaded` records, the per-cell log lines, and the total number of
destination files written. -/
def download_reports (env : String → String → CellResult) :
    List (String × String × String) → List OutcomeRec × List CellEvent × Nat
  | [] => ([], [], 0)
  | c :: rest =>
    let step := processCell env c
    let acc := download_reports env rest
    (step.1.toList ++ acc.1, step.2.1 :: acc.2.1, step.2.2 + acc.2.2)

/-! ### Helper lemmas about the loop -/

theorem download_reports_events (env : String → String → CellResult) :
    ∀ cells : List (String × String × String),
      (download_reports env cells).2.1 = cells.map fun c => (processCell env c).2.1 := by
  intro cells
  induction cells with
  | nil => rfl
  | cons c rest ih => simp [download_reports, ih]

theorem download_reports_outcomes (env : String → String → CellResult) :
    ∀ cells : List (String × String × String),
      (download_reports env cells).1 = cells.filterMap fun c => (processCell env c).1 := by
  intro cells
  induction cells with
  | nil => rfl
  | cons c rest ih =>
    simp only [download_reports, List.filterMap_cons, ih]
    cases h : (processCell env c).1 <;> simp [h]

theorem length_filterMap_eq_countP {α β : Type} (f : α → Option β) :
    ∀ l : List α, (l.filterMap f).length = l.countP fun a => (f a).isSome := by
  intro l
  induction l with
  | nil => rfl
  | cons a rest ih =>
    rw [List.filterMap_cons, List.countP_cons]
    cases h : f a <;> simp [h, ih]

theorem processCell_outcome_isSome (env : String → String → CellResult)
    (c : String × String × String) :
    ((processCell env c).1).isSome = (env c.1 c.2.1).isSuccess := by
  unfold processCell
  cases env c.1 c.2.1 <;> rfl

/-! ### Claims C1 and C2 -/

/-- Claim C1, as stated, is false on the code: a run in which every cell
reports "no instances" appends nothing to the outcome list, so the final
outcome count (0) differs from the catalog cell count (21).  The loop
appends an outcome only on success; a "no data" cell merely prints a log
line. -/
theorem c1_counterexample :
    (download_reports (fun _ _ => CellResult.noInstances) (cellsOf "REQ")).1.length = 0
    ∧ (cellsOf "REQ").length = 21
    ∧ (download_reports (fun _ _ => CellResult.noInstances) (cellsOf "REQ")).1.length
        ≠ (cellsOf "REQ").length := by
  decide

/-- Claim C1 (amended): one run of the download loop appends exactly one
outcome record per *successful* cell — the final outcome count equals the
number of successful cells, not the number of catalog cells — while every
cell contributes exactly one log line, and a cell with no instances or no
segments produces zero file writes and no outcome record (never a
placeholder file). -/
theorem c1_outcomes_match_successes :
    ∀ (env : String → String → CellResult) (requestId : String),
      (download_reports env (cellsOf requestId)).1.length
        = (cellsOf requestId).countP (fun c => (env c.1 c.2.1).isSuccess)
      ∧ (download_reports env (cellsOf requestId)).2.1.length = (cellsOf requestId).length
      ∧ ∀ c ∈ cellsOf requestId,
          (env c.1 c.2.1 = CellResult.noInstances ∨ env c.1 c.2.1 = CellResult.noSegments) →
            (processCell env c).1 = none ∧ (processCell env c).2.2 = 0 := by
  intro env requestId
  refine ⟨?_, ?_, ?_⟩
  · rw [download_reports_outcomes, length_filterMap_eq_countP]
    simp only [processCell_outcome_isSome]
  · rw [download_reports_events, List.length_map]
  · intro c _ h
    rcases h with h | h <;> simp [processCell, h]

/-- Witness for `c1_outcomes_match_successes` at the first catalog cell
with a "no instances" environment. -/
theorem c1_outcomes_match_successes_witness :
    (processCell (fun _ _ => CellResult.noInstances)
        ("r3-REQ", "DAILY", "downloads_standard_daily.csv")).1 = none
    ∧ (processCell (fun _ _ => CellResult.noInstances)
        ("r3-REQ", "DAILY", "downloads_standard_daily.csv")).2.2 = 0 :=
  (c1_outcomes_match_successes (fun _ _ => CellResult.noInstances) "REQ").2.2
    ("r3-REQ", "DAILY", "downloads_standard_daily.csv") (by decide) (Or.inl rfl)

/-- Claim C2, as stated, is false on the code in its "a failure outcome is
recorded" part: when every cell raises, every cell still runs (21 error log
lines carrying the error's string representation) but the run's outcome
list stays empty — no failure outcome record is ever appended. -/
theorem c2_counterexample :
    (download_reports (fun _ _ => CellResult.raisesDownload "boom" false) (cellsOf "REQ")).1 = []
    ∧ (download_reports (fun _ _ => CellResult.raisesDownload "boom" false)
        (cellsOf "REQ")).2.1
        = (cellsOf "REQ").map (fun c => CellEvent.error c.2.2 "boom") := by
  decide

/-- Claim C2 (amended): any exception raised anywhere inside a cell's
processing is caught at the cell boundary, the error's string
representation is printed as that cell's log line, and the traversal
continues — each cell's log line depends only on that cell's own result, so
no exception in one cell aborts the loop or prevents subsequent cells from
executing; however, no failure outcome record is appended to the run's
outcome list. -/
theorem c2_isolation :
    ∀ (env : String → String → CellResult) (requestId : String),
      (download_reports env (cellsOf requestId)).2.1
        = (cellsOf requestId).map (fun c => (processCell env c).2.1)
      ∧ ∀ c ∈ cellsOf requestId, ∀ m : String,
          (env c.1 c.2.1 = CellResult.raisesListing m
            ∨ ∃ w, env c.1 c.2.1 = CellResult.raisesDownload m w) →
            (processCell env c).2.1 = CellEvent.error c.2.2 m
            ∧ (processCell env c).1 = none := by
  intro env requestId
  refine ⟨download_reports_events env _, ?_⟩
  intro c _ m h
  rcases h with h | ⟨w, h⟩ <;> simp [processCell, h]

/-- Witness for `c2_isolation` at the first catalog cell with an
environment whose listing call raises. -/
theorem c2_isolation_witness :
    (processCell (fun _ _ => CellResult.raisesListing "boom")
        ("r3-REQ", "DAILY", "downloads_standard_daily.csv")).2.1
      = CellEvent.error "downloads_standard_daily.csv" "boom"
    ∧ (processCell (fun _ _ => CellResult.raisesListing "boom")
        ("r3-REQ", "DAILY", "downloads_standard_daily.csv")).1 = none :=
  (c2_isolation (fun _ _ => CellResult.raisesListing "boom") "REQ").2
    ("r3-REQ", "DAILY", "downloads_standard_daily.csv") (by decide) "boom" (Or.inl rfl)

/-! ### Claim C3: configuration preconditions and process termination

`WeeklySyncJob.__init__` raises `SystemExit` when `ANALYTICS_REQUEST_ID`
is empty, and constructs `AppStoreClient`, whose constructor first calls
`generate_token()` (which raises `SystemExit` when `ISSUER_ID`, `KEY_ID`
or `PRIVATE_KEY_PATH` is missing or the key file does not exist) and then
raises `SystemExit` when `APP_ID` is empty.  These exits happen before any
network request.  By contrast, `FirebaseAnalytics()` and `SheetsClient()`
raise `SystemExit` for a missing credentials file or spreadsheet id, but
`_download_firebase` and `_upload_to_sheets` catch that `SystemExit`,
print a "Skipping" line and return, so the run continues. -/
structure Config where
  analyticsRequestId : String
  authEnvOk : Bool
  appId : String
  googleCredentialsExist : Bool
  googleSpreadsheetId : String
  deriving Repr, DecidableEq

/-- Exit message for a missing `ANALYTICS_REQUEST_ID`
(`WeeklySyncJob.__init__`). -/
def msgRequestId : String := "ANALYTICS_REQUEST_ID is not set.\nAdd it to your .env file."

/-- Exit message for missing auth environment variables
(`auth._require_env` / `auth._load_private_key`). -/
def msgAuthEnv : String := "Environment variable for token generation is not set. Check your .env file."

/-- Exit message for a missing `APP_ID` (`AppStoreClient.__init__`). -/
def msgAppId : String := "APP_ID is not set in .env file."

/-- How one invocation of the job ends: `exited msg` models an uncaught
`SystemExit` from the constructors, `completed fbSkipped sheetsSkipped`
models a run that traverses the pipeline to the end, where the two flags
record whether the secondary-analytics phase and the upload phase were
skipped because their client constructor raised `SystemExit`. -/
inductive RunOutcome where
  | exited (msg : String)
  | completed (firebaseSkipped : Bool) (sheetsSkipped : Bool)
  deriving Repr, DecidableEq

/-- `main()` / `WeeklySyncJob().run()`: returns the run outcome paired with
whether any network call was attempted.  The download phase (which makes
network calls) runs whenever the constructors succeed. -/
def run_job (cfg : Config) : RunOutcome × Bool :=
  if cfg.analyticsRequestId = "" then (.exited msgRequestId, false)
  else if cfg.authEnvOk = false then (.exited msgAuthEnv, false)
  else if cfg.appId = "" then (.exited msgAppId, false)
  else
    (.completed (!cfg.googleCredentialsExist)
      (!cfg.googleCredentialsExist || cfg.googleSpreadsheetId = ""), true)

/-- Claim C3, as stated, is false on the code: with a valid request id and
App Store credentials but an empty `GOOGLE_SPREADSHEET_ID` (or a missing
Google credentials file), the process does not terminate — `SystemExit`
from `SheetsClient` / `FirebaseAnalytics` is caught by the orchestrator,
the corresponding phase is skipped, and the run completes after the
network download phase already ran. -/
theorem c3_counterexample :
    run_job ⟨"REQ", true, "12345", true, ""⟩
      = (RunOutcome.completed false true, true)
    ∧ run_job ⟨"REQ", true, "12345", false, "SHEET"⟩
      = (RunOutcome.completed true true, true) := by
  decide

/-- Claim C3 (amended): a missing report request id, missing token
environment variables, or missing `APP_ID` cause immediate process
termination with a descriptive message before any network call; a missing
spreadsheet id or Google credentials file instead raises `SystemExit`
inside the respective client constructor, which the orchestrator catches —
the phase is skipped and the run continues to completion. -/
theorem c3_exit_policy :
    ∀ cfg : Config,
      (cfg.analyticsRequestId = "" → run_job cfg = (.exited msgRequestId, false))
      ∧ (cfg.analyticsRequestId ≠ "" → cfg.authEnvOk = false →
          run_job cfg = (.exited msgAuthEnv, false))
      ∧ (cfg.analyticsRequestId ≠ "" → cfg.authEnvOk = true → cfg.appId = "" →
          run_job cfg = (.exited msgAppId, false))
      ∧ (cfg.analyticsRequestId ≠ "" → cfg.authEnvOk = true → cfg.appId ≠ "" →
          run_job cfg
            = (.completed (!cfg.googleCredentialsExist)
                (!cfg.googleCredentialsExist || cfg.googleSpreadsheetId = ""), true)) := by
  intro cfg
  refine ⟨?_, ?_, ?_, ?_⟩ <;> intros <;> simp_all [run_job]

/-- Witness for `c3_exit_policy`: a configuration missing only the
spreadsheet id completes with the upload phase skipped. -/
theorem c3_exit_policy_witness :
    run_job ⟨"REQ", true, "12345", true, ""⟩
      = (RunOutcome.completed false true, true) :=
  (c3_exit_policy ⟨"REQ", true, "12345", true, ""⟩).2.2.2
    (by decide) rfl (by decide)

/-! ### Claim C4: `AppStoreClient.download_instance` -/

/-- One segment object as returned by `get_segments`: its
`attributes.url`, where `none` models a missing `url` attribute (the code
reads `segment.get("attributes", {}).get("url")`). -/
structure Segment where
  url : Option String
  deriving Repr, DecidableEq

/-- A segment's `download_url` is truthy: present and nonempty
(`if not download_url: continue`). -/
def validUrl (s : Segment) : Bool :=
  match s.url with
  | some u => u ≠ ""
  | none => false

/-- The `for segment in segments` loop of `download_instance`: the first
segment with a truthy url is downloaded and the function returns; the
result names the materialized segment's index and url.  An empty segment
list (which the code detects before the loop, returning `None` before
`mkdir`) also yields `none`. -/
def segScan : List Segment → Option (Nat × String)
  | [] => none
  | s :: rest =>
    match s.url with
    | none => (segScan rest).map fun p => (p.1 + 1, p.2)
    | some u =>
      if u = "" then (segScan rest).map fun p => (p.1 + 1, p.2)
      else some (0, u)

/-- `AppStoreClient.download_instance`, abstracted to which segment (index
and url) gets materialized; `none` means no file was written. -/
def download_instance (segments : List Segment) : Option (Nat × String) :=
  segScan segments

theorem validUrl_true_iff (s : Segment) :
    validUrl s = true ↔ ∃ u, s.url = some u ∧ u ≠ "" := by
  cases hu : s.url <;> simp [validUrl, hu]

theorem segScan_cons (s : Segment) (rest : List Segment) :
    segScan (s :: rest)
      = if validUrl s then some (0, (s.url).getD "")
        else (segScan rest).map fun p => (p.1 + 1, p.2) := by
  cases hu : s.url with
  | none => simp [segScan, validUrl, hu]
  | some u' => by_cases he : u' = "" <;> simp [segScan, validUrl, hu, he]

theorem segScan_some :
    ∀ (segments : List Segment) (i : Nat) (u : String),
      segScan segments = some (i, u) →
      ∃ s, segments[i]? = some s ∧ s.url = some u ∧ u ≠ ""
        ∧ ∀ j, j < i → ∀ s', segments[j]? = some s' → validUrl s' = false := by
  intro segments
  induction segments with
  | nil => intro i u h; simp [segScan] at h
  | cons s rest ih =>
    intro i u h
    rw [segScan_cons] at h
    by_cases hv : validUrl s
    · rw [if_pos hv] at h
      obtain ⟨u', hu', hne⟩ := (validUrl_true_iff s).mp hv
      rw [hu'] at h
      simp only [Option.getD_some, Option.some.injEq, Prod.mk.injEq] at h
      obtain ⟨hi, hu2⟩ := h
      subst hi; subst hu2
      exact ⟨s, by simp, hu', hne, fun j hj => absurd hj (by omega)⟩
    · rw [if_neg hv] at h
      cases hscan : segScan rest with
      | none => rw [hscan] at h; simp at h
      | some p =>
        rw [hscan] at h
        simp only [Option.map_some', Option.some.injEq, Prod.mk.injEq] at h
        obtain ⟨hi, hu2⟩ := h
        subst hi; subst hu2
        obtain ⟨s', hs', hurl, hne, hbefore⟩ := ih p.1 p.2 hscan
        refine ⟨s', by simpa using hs', hurl, hne, ?_⟩
        intro j hj s'' hs''
        cases j with
        | zero =>
          simp only [List.getElem?_cons_zero, Option.some.injEq] at hs''
          subst hs''
          simpa using hv
        | succ k =>
          simp only [List.getElem?_cons_succ] at hs''
          exact hbefore k (by omega) s'' hs''

theorem segScan_none :
    ∀ segments : List Segment, segScan segments = none →
      ∀ s ∈ segments, validUrl s = false := by
  intro segments
  induction segments with
  | nil => intro _ s hs; simp at hs
  | cons s rest ih =>
    intro h s' hs'
    rw [segScan_cons] at h
    by_cases hv : validUrl s
    · rw [if_pos hv] at h; simp at h
    · rw [if_neg hv] at h
      rcases List.mem_cons.mp hs' with rfl | hmem
      · simpa using hv
      · refine ih ?_ s' hmem
        cases hscan : segScan rest with
        | none => rfl
        | some p => rw [hscan] at h; simp at h

/-- Claim C4, as stated, is false on the code: when the first segment in
the result set lacks a download url, the loop skips it and materializes
the *second* segment — the file is derived from segment index 1, not
index 0. -/
theorem c4_counterexample :
    download_instance [⟨none⟩, ⟨some "https://cdn.example/seg1.csv.gz"⟩]
      = some (1, "https://cdn.example/seg1.csv.gz")
    ∧ (1 : Nat) ≠ 0 := by
  decide

/-- Claim C4 (amended): `download_instance` writes at most one file, and
the segment it materializes is the *first segment carrying a truthy
download url* (index 0 exactly when segment 0 has a url); every earlier
segment has no usable url, all later segments are silently ignored, and
when no segment has a usable url nothing is written. -/
theorem c4_first_valid_segment :
    ∀ (segments : List Segment) (i : Nat) (u : String),
      (download_instance segments = some (i, u) →
        ∃ s, segments[i]? = some s ∧ s.url = some u ∧ u ≠ ""
          ∧ ∀ j, j < i → ∀ s', segments[j]? = some s' → validUrl s' = false)
      ∧ (download_instance segments = none →
          ∀ s ∈ segments, validUrl s = false) :=
  fun segments i u =>
    ⟨fun h => segScan_some segments i u h,
     fun h => segScan_none segments h⟩

/-- Witness for `c4_first_valid_segment` on a two-segment list whose
first segment has no url. -/
theorem c4_first_valid_segment_witness :
    ∃ s, ([⟨none⟩, ⟨some "https://cdn.example/seg1.csv.gz"⟩] :
        List Segment)[1]? = some s
      ∧ s.url = some "https://cdn.example/seg1.csv.gz"
      ∧ "https://cdn.example/seg1.csv.gz" ≠ ""
      ∧ ∀ j, j < 1 → ∀ s',
          ([⟨none⟩, ⟨some "https://cdn.example/seg1.csv.gz"⟩] :
            List Segment)[j]? = some s' → validUrl s' = false :=
  (c4_first_valid_segment [⟨none⟩, ⟨some "https://cdn.example/seg1.csv.gz"⟩]
    1 "https://cdn.example/seg1.csv.gz").1 (by decide)

/-! ### Claim C5: `SheetsClient.upload_data` / `upload_csv` -/

/-- A worksheet's cell grid (rows of cells). -/
abbrev Grid := List (List String)

/-- Writing a row block anchored at the left edge: cells of the new row
replace the old ones, old cells beyond the new row's width survive. -/
def overlayRow (newRow oldRow : List String) : List String :=
  newRow ++ oldRow.drop newRow.length

/-- gspread `worksheet.update(range_name="A1", values=data)`: the data
block is written anchored at the top-left cell; cells outside the block
are left unchanged. -/
def overlay : Grid → Grid → Grid
  | [], old => old
  | r :: rs, [] => r :: overlay rs []
  | r :: rs, o :: os => overlayRow r o :: overlay rs os

/-- `SheetsClient.upload_data`: empty data returns 0 before touching the
worksheet; otherwise the worksheet is cleared (when `clear_first`), the
data block is written at A1, and the number of data rows is returned.
Returns the final worksheet grid paired with the returned row count. -/
def upload_data (sheet : Grid) (data : Grid) (clearFirst : Bool) : Grid × Nat :=
  if data = [] then (sheet, 0)
  else
    let s1 := if clearFirst then ([] : Grid) else sheet
    (overlay data s1, data.length)

/-- `SheetsClient.upload_csv`: parse the tab-delimited file into rows
(modelled as the given row list) and upload with `clear_first=True`, as
the weekly job calls it. -/
def upload_csv (sheet : Grid) (fileRows : Grid) : Grid × Nat :=
  upload_data sheet fileRows true

theorem overlay_nil_right : ∀ data : Grid, overlay data [] = data := by
  intro data
  induction data with
  | nil => rfl
  | cons r rs ih => simp [overlay, ih]

/-- Claim C5, as stated, is false on the code at one input: uploading an
*empty* file returns 0 without clearing the destination — the worksheet's
existing content survives, so the upload is not a full replace for that
file. -/
theorem c5_counterexample :
    upload_csv [["old"]] [] = ([["old"]], 0) ∧ ([["old"]] : Grid) ≠ [] := by
  decide

/-- Claim C5 (amended): for every *nonempty* tab-delimited file the upload
is a full replace — the destination worksheet's content is cleared and the
file's rows (header included) become exactly the worksheet's content, with
the returned count equal to the file's row count; for an empty file
nothing is cleared or written and 0 is returned. -/
theorem c5_full_replace :
    ∀ sheet fileRows : Grid,
      (fileRows ≠ [] → upload_csv sheet fileRows = (fileRows, fileRows.length))
      ∧ upload_csv sheet [] = (sheet, 0) := by
  intro sheet fileRows
  constructor
  · intro h
    unfold upload_csv upload_data
    simp [h, overlay_nil_right]
  · rfl

/-- Witness for `c5_full_replace` on a two-row file over a nonempty
worksheet. -/
theorem c5_full_replace_witness :
    upload_csv [["stale", "cells"]] [["Date", "Units"], ["2024-01-01", "7"]]
      = ([["Date", "Units"], ["2024-01-01", "7"]], 2) :=
  (c5_full_replace [["stale", "cells"]] [["Date", "Units"], ["2024-01-01", "7"]]).1
    (by decide)

/-! ### Claims C7 and C8: `AppStoreClient.download_segment` -/

/-- Raw file content. -/
abbrev Bytes := List Nat

/-- A flat filesystem: path to content. -/
abbrev FS := List (String × Bytes)

/-- `path.unlink()`: remove the path. -/
def FS.unlink (fs : FS) (p : String) : FS :=
  fs.filter fun e => e.1 ≠ p

/-- `path.write_bytes(b)`: create or overwrite. -/
def FS.write (fs : FS) (p : String) (b : Bytes) : FS :=
  (p, b) :: fs.unlink p

/-- Read a file's bytes, `none` when the path does not exist. -/
def FS.read? (fs : FS) (p : String) : Option Bytes :=
  (fs.find? fun e => e.1 = p).map (·.2)

theorem FS.read?_unlink_self (fs : FS) (p : String) :
    (fs.unlink p).read? p = none := by
  unfold FS.unlink FS.read?
  induction fs with
  | nil => rfl
  | cons e rest ih =>
    by_cases he : e.1 = p
    · rw [List.filter_cons_of_neg (by simpa using he)]; exact ih
    · rw [List.filter_cons_of_pos (by simpa using he),
        List.find?_cons_of_neg _ (by simpa using he)]
      exact ih

theorem FS.read?_unlink_other (fs : FS) (p q : String) (h : q ≠ p) :
    (fs.unlink p).read? q = fs.read? q := by
  unfold FS.unlink FS.read?
  congr 1
  induction fs with
  | nil => rfl
  | cons e rest ih =>
    by_cases he : e.1 = p
    · rw [List.filter_cons_of_neg (by simpa using he),
        List.find?_cons_of_neg _ (by simp [he, Ne.symm h]), ih]
    · rw [List.filter_cons_of_pos (by simpa using he)]
      by_cases heq : e.1 = q
      · rw [List.find?_cons_of_pos _ (by simpa using heq),
          List.find?_cons_of_pos _ (by simpa using heq)]
      · rw [List.find?_cons_of_neg _ (by simpa using heq),
          List.find?_cons_of_neg _ (by simpa using heq), ih]

theorem FS.read?_write_self (fs : FS) (p : String) (b : Bytes) :
    (fs.write p b).read? p = some b := by
  unfold FS.write FS.read?
  rw [List.find?_cons_of_pos _ (by simp)]
  rfl

theorem FS.read?_write_other (fs : FS) (p q : String) (b : Bytes) (h : q ≠ p) :
    (fs.write p b).read? q = fs.read? q := by
  unfold FS.write
  have h1 : FS.read? ((p, b) :: fs.unlink p) q = FS.read? (fs.unlink p) q := by
    unfold FS.read?
    rw [List.find?_cons_of_neg _ (by simpa using Ne.symm h)]
  rw [h1, FS.read?_unlink_other fs p q h]

/-- Bool test that `small` is a prefix of `big` (character lists). -/
def listIsPrefix : List Char → List Char → Bool
  | [], _ => true
  | _ :: _, [] => false
  | a :: as, b :: bs => a = b && listIsPrefix as bs

/-- Python `str.endswith`: the suffix read backwards is a prefix of the
string read backwards. -/
def strEndsWith (s sfx : String) : Bool :=
  listIsPrefix sfx.data.reverse s.data.reverse

/-- Index of the last occurrence of a character, if any. -/
def lastIdxOfChar (ch : Char) : List Char → Option Nat
  | [] => none
  | c :: cs =>
    match lastIdxOfChar ch cs with
    | some i => some (i + 1)
    | none => if c = ch then some 0 else none

/-- `pathlib.PurePath.with_suffix`: replace the (last) suffix of the final
path component; a name with no dot, or only a leading dot, has no suffix
to strip. -/
def with_suffix (p sfx : String) : String :=
  let cs := p.data
  let dn : List Char × List Char :=
    match lastIdxOfChar '/' cs with
    | some i => (cs.take (i + 1), cs.drop (i + 1))
    | none => ([], cs)
  let stem : List Char :=
    match lastIdxOfChar '.' dn.2 with
    | none => dn.2
    | some 0 => dn.2
    | some i => dn.2.take i
  ⟨dn.1 ++ stem ++ sfx.data⟩

/-- The compression detection policy of `download_segment`:
`download_url.endswith('.gz') or
response.headers.get('Content-Type') == 'application/gzip'`. -/
def is_gzipped (downloadUrl : String) (contentType : Option String) : Bool :=
  strEndsWith downloadUrl ".gz" || contentType = some "application/gzip"

/-- `AppStoreClient.download_segment`, as a filesystem transition:
`content` is the response body, `gunzip` the gzip collaborator.  When the
response is detected as compressed, the bytes are first written to the
`.csv.gz` sibling, that file is read back and decompressed into the
destination, and the intermediate file is unlinked; otherwise the bytes
are written to the destination verbatim. -/
def download_segment (gunzip : Bytes → Bytes) (fs : FS) (downloadUrl : String)
    (contentType : Option String) (content : Bytes) (outputPath : String) : FS :=
  if is_gzipped downloadUrl contentType then
    let gzPath := with_suffix outputPath ".csv.gz"
    let fs1 := fs.write gzPath content
    let fs2 := fs1.write outputPath (gunzip ((fs1.read? gzPath).getD []))
    fs2.unlink gzPath
  else
    fs.write outputPath content

/-- Claim C7 (confirmed): a response is treated as compressed iff its URL
ends in `.gz` or its content-type is `application/gzip`; either signal
alone triggers decompression of the body into the destination, and with
neither signal the body bytes land in the destination verbatim — for
every body, so no byte-sniffing of magic numbers takes place. -/
theorem c7_compression_policy :
    ∀ (gunzip : Bytes → Bytes) (fs : FS) (url : String) (ct : Option String)
      (content : Bytes) (out : String),
      with_suffix out ".csv.gz" ≠ out →
      (is_gzipped url ct = true
        ↔ (strEndsWith url ".gz" = true ∨ ct = some "application/gzip"))
      ∧ (is_gzipped url ct = true →
          (download_segment gunzip fs url ct content out).read? out
            = some (gunzip content))
      ∧ (is_gzipped url ct = false →
          (download_segment gunzip fs url ct content out).read? out
            = some content) := by
  intro gunzip fs url ct content out hneq
  refine ⟨?_, ?_, ?_⟩
  · simp [is_gzipped]
  · intro h
    unfold download_segment
    rw [if_pos h, FS.read?_unlink_other _ _ _ (Ne.symm hneq),
      FS.read?_write_self, FS.read?_write_self]
    rfl
  · intro h
    unfold download_segment
    rw [if_neg (by simp [h]), FS.read?_write_self]


/-- Witness for `c7_compression_policy`: a `.gz` URL without a
content-type is decompressed; a plain URL with the gzip content-type is
decompressed; with neither signal the bytes are verbatim. -/
theorem c7_compression_policy_witness :
    ((download_segment (fun b => 0 :: b) []
        "https://api.example/seg0.gz" none [7, 8]
        "reports/2024-01-05/downloads_standard_daily.csv").read?
        "reports/2024-01-05/downloads_standard_daily.csv" = some [0, 7, 8])
    ∧ ((download_segment (fun b => 0 :: b) []
        "https://api.example/seg0" (some "application/gzip") [7, 8]
        "reports/2024-01-05/downloads_standard_daily.csv").read?
        "reports/2024-01-05/downloads_standard_daily.csv" = some [0, 7, 8])
    ∧ ((download_segment (fun b => 0 :: b) []
        "https://api.example/seg0" none [7, 8]
        "reports/2024-01-05/downloads_standard_daily.csv").read?
        "reports/2024-01-05/downloads_standard_daily.csv" = some [7, 8]) :=
  ⟨(c7_compression_policy (fun b => 0 :: b) [] "https://api.example/seg0.gz"
      none [7, 8] "reports/2024-01-05/downloads_standard_daily.csv"
      (by decide)).2.1 (by decide),
   (c7_compression_policy (fun b => 0 :: b) [] "https://api.example/seg0"
      (some "application/gzip") [7, 8]
      "reports/2024-01-05/downloads_standard_daily.csv"
      (by decide)).2.1 (by decide),
   (c7_compression_policy (fun b => 0 :: b) [] "https://api.example/seg0"
      none [7, 8] "reports/2024-01-05/downloads_standard_daily.csv"
      (by decide)).2.2 (by decide)⟩

/-- Claim C8 (confirmed): after a successful compressed materialization
the destination path holds the decompressed bytes, the intermediate
`.csv.gz` sibling is gone, and every unrelated path is untouched. -/
theorem c8_intermediate_deleted :
    ∀ (gunzip : Bytes → Bytes) (fs : FS) (url : String) (ct : Option String)
      (content : Bytes) (out : String),
      with_suffix out ".csv.gz" ≠ out →
      is_gzipped url ct = true →
      (download_segment gunzip fs url ct content out).read? out
        = some (gunzip content)
      ∧ (download_segment gunzip fs url ct content out).read?
          (with_suffix out ".csv.gz") = none
      ∧ ∀ q, q ≠ out → q ≠ with_suffix out ".csv.gz" →
          (download_segment gunzip fs url ct content out).read? q
            = fs.read? q := by
  intro gunzip fs url ct content out hneq h
  unfold download_segment
  rw [if_pos h]
  refine ⟨?_, ?_, ?_⟩
  · rw [FS.read?_unlink_other _ _ _ (Ne.symm hneq),
      FS.read?_write_self, FS.read?_write_self]
    rfl
  · exact FS.read?_unlink_self _ _
  · intro q hq1 hq2
    rw [FS.read?_unlink_other _ _ _ hq2, FS.read?_write_other _ _ _ _ hq1,
      FS.read?_write_other _ _ _ _ hq2]

/-- Witness for `c8_intermediate_deleted` on a concrete compressed
download over a filesystem holding one unrelated file. -/
theorem c8_intermediate_deleted_witness :
    ((download_segment (fun b => 0 :: b) [("logs/run.log", [9])]
        "https://api.example/seg0.gz" none [7, 8]
        "reports/2024-01-05/downloads_standard_daily.csv").read?
        "reports/2024-01-05/downloads_standard_daily.csv" = some [0, 7, 8])
    ∧ ((download_segment (fun b => 0 :: b) [("logs/run.log", [9])]
        "https://api.example/seg0.gz" none [7, 8]
        "reports/2024-01-05/downloads_standard_daily.csv").read?
        (with_suffix "reports/2024-01-05/downloads_standard_daily.csv" ".csv.gz")
        = none)
    ∧ ((download_segment (fun b => 0 :: b) [("logs/run.log", [9])]
        "https://api.example/seg0.gz" none [7, 8]
        "reports/2024-01-05/downloads_standard_daily.csv").read?
        "logs/run.log" = FS.read? [("logs/run.log", [9])] "logs/run.log") :=
  have h := c8_intermediate_deleted (fun b => 0 :: b) [("logs/run.log", [9])]
    "https://api.example/seg0.gz" none [7, 8]
    "reports/2024-01-05/downloads_standard_daily.csv" (by decide) (by decide)
  ⟨h.1, h.2.1, h.2.2 "logs/run.log" (by decide) (by decide)⟩

/-! ### Claim C6: `get_date_range` -/

theorem listLe_refl : ∀ as : List Char, listLe as as = true := by
  intro as
  induction as with
  | nil => rfl
  | cons a as ih => simp [listLe, ih]

theorem listLe_total : ∀ as bs : List Char, listLe as bs = true ∨ listLe bs as = true := by
  intro as
  induction as with
  | nil => intro bs; left; rfl
  | cons a as ih =>
    intro bs
    cases bs with
    | nil => right; rfl
    | cons b bs =>
      by_cases h1 : a.toNat < b.toNat
      · left; simp [listLe, h1]
      · by_cases h2 : b.toNat < a.toNat
        · right; simp [listLe, h2]
        · rcases ih bs with h | h
          · left; simp [listLe, h1, h2, h]
          · right; simp [listLe, h1, h2, h]

theorem listLe_trans : ∀ as bs cs : List Char,
    listLe as bs = true → listLe bs cs = true → listLe as cs = true := by
  intro as
  induction as with
  | nil => intro bs cs _ _; rfl
  | cons a as ih =>
    intro bs cs h1 h2
    cases bs with
    | nil => simp [listLe] at h1
    | cons b bs =>
      cases cs with
      | nil => simp [listLe] at h2
      | cons c cs =>
        simp only [listLe] at h1 h2 ⊢
        by_cases hab : a.toNat < b.toNat
        · by_cases hbc : b.toNat < c.toNat
          · simp [show a.toNat < c.toNat from Nat.lt_trans hab hbc]
          · by_cases hcb : c.toNat < b.toNat
            · rw [if_neg hbc, if_pos hcb] at h2; simp at h2
            · simp [show a.toNat < c.toNat by omega]
        · by_cases hba : b.toNat < a.toNat
          · rw [if_neg hab, if_pos hba] at h1; simp at h1
          · by_cases hbc : b.toNat < c.toNat
            · simp [show a.toNat < c.toNat by omega]
            · by_cases hcb : c.toNat < b.toNat
              · rw [if_neg hbc, if_pos hcb] at h2; simp at h2
              · rw [if_neg hab, if_neg hba] at h1
                rw [if_neg hbc, if_neg hcb] at h2
                rw [if_neg (show ¬a.toNat < c.toNat by omega),
                  if_neg (show ¬c.toNat < a.toNat by omega)]
                exact ih bs cs h1 h2

/-- The order used below: Python string `<=`. -/
def strle (a b : String) : Prop := strLeB a b = true

theorem strle_refl (a : String) : strle a a := listLe_refl a.data

theorem strle_total (a b : String) : strle a b ∨ strle b a := listLe_total a.data b.data

theorem strle_trans {a b c : String} (h1 : strle a b) (h2 : strle b c) : strle a c :=
  listLe_trans a.data b.data c.data h1 h2

/-- One insertion step of a sort by Python string order (Python's `sorted`
on the collected date set is modelled as insertion sort, which produces
the same sorted list). -/
def insertDate (d : String) : List String → List String
  | [] => [d]
  | x :: xs => if strLeB d x = true then d :: x :: xs else x :: insertDate d xs

/-- `sorted(dates)` from `get_date_range`. -/
def sortStrings (l : List String) : List String := l.foldr insertDate []

theorem mem_insertDate (d : String) :
    ∀ (l : List String) (a : String), a ∈ insertDate d l ↔ a = d ∨ a ∈ l := by
  intro l
  induction l with
  | nil => intro a; simp [insertDate]
  | cons x xs ih =>
    intro a
    by_cases h : strLeB d x = true
    · simp only [insertDate, if_pos h, List.mem_cons]
    · simp only [insertDate, if_neg h, List.mem_cons, ih]
      tauto

theorem insertDate_head? (d : String) (l : List String) :
    (insertDate d l).head? = some d ∨ (insertDate d l).head? = l.head? := by
  cases l with
  | nil => left; rfl
  | cons x xs =>
    by_cases h : strLeB d x = true
    · left; simp only [insertDate, if_pos h, List.head?_cons]
    · right; simp only [insertDate, if_neg h, List.head?_cons]

theorem chain'_insertDate (d : String) :
    ∀ l : List String, List.Chain' strle l → List.Chain' strle (insertDate d l) := by
  intro l
  induction l with
  | nil => intro _; simp [insertDate]
  | cons x xs ih =>
    intro hch
    by_cases h : strLeB d x = true
    · simp only [insertDate, if_pos h]
      exact List.chain'_cons.mpr ⟨h, hch⟩
    · simp only [insertDate, if_neg h]
      apply List.chain'_cons'.mpr
      refine ⟨?_, ih (List.chain'_cons'.mp hch).2⟩
      intro y hy
      rcases insertDate_head? d xs with hh | hh
      · rw [hh] at hy
        simp only [Option.mem_def, Option.some.injEq] at hy
        subst hy
        rcases strle_total x d with ht | ht
        · exact ht
        · exact absurd ht h
      · rw [hh] at hy
        exact (List.chain'_cons'.mp hch).1 y hy

theorem sortStrings_chain' (l : List String) : List.Chain' strle (sortStrings l) := by
  induction l with
  | nil => simp [sortStrings]
  | cons x xs ih => exact chain'_insertDate x (sortStrings xs) ih

theorem mem_sortStrings (l : List String) (a : String) :
    a ∈ sortStrings l ↔ a ∈ l := by
  induction l with
  | nil => simp [sortStrings]
  | cons x xs ih =>
    show a ∈ insertDate x (sortStrings xs) ↔ _
    rw [mem_insertDate, ih]
    simp

theorem chain'_head_le :
    ∀ (xs : List String) (x : String), List.Chain' strle (x :: xs) →
      ∀ v ∈ x :: xs, strle x v := by
  intro xs
  induction xs with
  | nil =>
    intro x _ v hv
    simp only [List.mem_singleton] at hv
    subst hv
    exact strle_refl v
  | cons y ys ih =>
    intro x hch v hv
    rcases List.mem_cons.mp hv with rfl | hv'
    · exact strle_refl v
    · exact strle_trans (List.chain'_cons.mp hch).1
        (ih y (List.chain'_cons.mp hch).2 v hv')

theorem chain'_le_last :
    ∀ (xs : List String) (x : String), List.Chain' strle (x :: xs) →
      ∀ v ∈ x :: xs, strle v (xs.getLastD x) := by
  intro xs
  induction xs with
  | nil =>
    intro x _ v hv
    simp only [List.mem_singleton] at hv
    subst hv
    exact strle_refl v
  | cons y ys ih =>
    intro x hch v hv
    rw [List.getLastD_cons]
    rcases List.mem_cons.mp hv with rfl | hv'
    · exact strle_trans (List.chain'_cons.mp hch).1
        (ih y (List.chain'_cons.mp hch).2 y (List.mem_cons_self y ys))
    · exact ih y (List.chain'_cons.mp hch).2 v hv'

theorem getLastD_mem_cons : ∀ (ds : List String) (d : String), ds.getLastD d ∈ d :: ds := by
  intro ds
  induction ds with
  | nil => intro d; simp
  | cons y ys ih =>
    intro d
    rw [List.getLastD_cons]
    exact List.mem_cons_of_mem d (ih y)

/-- `str.isdigit` restricted to the ASCII digits that occur in report date
columns. -/
def isDigitChar (c : Char) : Bool := decide ('0' ≤ c ∧ c ≤ '9')

/-- `date_val and date_val[0].isdigit()`: the value is truthy (nonempty)
and its first character is a digit. -/
def qualifies (v : String) : Bool :=
  match v.data with
  | [] => false
  | c :: _ => isDigitChar c

/-- Index of the last occurrence of a field name in the header row;
`csv.DictReader` builds each row dict with `dict(zip(fieldnames, row))`,
so a duplicated field name resolves to its last occurrence. -/
def lastIdxOfStr (key : String) : List String → Option Nat
  | [] => none
  | x :: xs =>
    match lastIdxOfStr key xs with
    | some i => some (i + 1)
    | none => if x = key then some 0 else none

/-- `row.get("Date", "")` on a `csv.DictReader` row: `none` models both a
missing `Date` column (default `""`) and a row too short to reach the
column (`restval=None`) — both are falsy and are skipped by the guard. -/
def dictGet (header row : List String) (key : String) : Option String :=
  match lastIdxOfStr key header with
  | none => none
  | some i => row[i]?

/-- The loop of `get_date_range`: walk the rows, adding each truthy,
digit-leading `Date` value to the set of collected dates (`acc`, kept
deduplicated like a Python `set`). -/
def collectDates (header : List String) : List (List String) → List String → List String
  | [], acc => acc
  | row :: rest, acc =>
    match dictGet header row "Date" with
    | none => collectDates header rest acc
    | some v =>
      if qualifies v = true then
        if v ∈ acc then collectDates header rest acc
        else collectDates header rest (acc ++ [v])
      else collectDates header rest acc

/-- The qualifying `Date` value of one row, if any: the row's `Date` field
when it is nonempty and starts with a digit. -/
def dateValue? (header row : List String) : Option String :=
  match dictGet header row "Date" with
  | some v => if qualifies v = true then some v else none
  | none => none

/-- Specification-side description of the collected values: the qualifying
`Date` values of all rows. -/
def dateValuesOf (header : List String) (rows : List (List String)) : List String :=
  rows.filterMap (dateValue? header)

theorem mem_dateValuesOf_cons (header row : List String)
    (rest : List (List String)) (w : String) :
    w ∈ dateValuesOf header (row :: rest)
      ↔ dateValue? header row = some w ∨ w ∈ dateValuesOf header rest := by
  simp only [dateValuesOf, List.filterMap_cons]
  cases h : dateValue? header row with
  | none => simp [h]
  | some u => simp [h, List.mem_cons, eq_comm]

theorem collectDates_cons (header row : List String)
    (rest : List (List String)) (acc : List String) :
    collectDates header (row :: rest) acc
      = match dateValue? header row with
        | none => collectDates header rest acc
        | some v =>
          if v ∈ acc then collectDates header rest acc
          else collectDates header rest (acc ++ [v]) := by
  simp only [collectDates, dateValue?]
  cases hg : dictGet header row "Date" with
  | none => rfl
  | some u =>
    by_cases hq : qualifies u = true
    · simp only [if_pos hq]
    · simp only [if_neg hq]

theorem mem_collectDates (header : List String) :
    ∀ (rows : List (List String)) (acc : List String) (v : String),
      v ∈ collectDates header rows acc
        ↔ v ∈ acc ∨ v ∈ dateValuesOf header rows := by
  intro rows
  induction rows with
  | nil => intro acc v; simp [collectDates, dateValuesOf]
  | cons row rest ih =>
    intro acc v
    rw [collectDates_cons, mem_dateValuesOf_cons]
    cases h : dateValue? header row with
    | none =>
      rw [ih]
      simp
    | some u =>
      by_cases hm : u ∈ acc
      · simp only [if_pos hm]
        rw [ih]
        constructor
        · rintro (hv | hv)
          · exact Or.inl hv
          · exact Or.inr (Or.inr hv)
        · rintro (hv | hv | hv)
          · exact Or.inl hv
          · exact Or.inl ((Option.some.inj hv) ▸ hm)
          · exact Or.inr hv
      · simp only [if_neg hm]
        rw [ih]
        simp only [List.mem_append, List.mem_singleton, Option.some.injEq]
        tauto

/-- `appstore_api.get_date_range`.  The input is the parsed tab-delimited
file: `none` models a missing or unreadable file (the blanket
`except Exception: pass`), `some rows` the parsed row list whose head is
the header.  Both sentinel branches return `("-", "-")`; otherwise the
sorted collected set's first and last elements are returned. -/
def get_date_range (file : Option (List (List String))) : String × String :=
  match file with
  | none => ("-", "-")
  | some [] => ("-", "-")
  | some (header :: rows) =>
    match sortStrings (collectDates header rows []) with
    | [] => ("-", "-")
    | d :: ds => (d, ds.getLastD d)

theorem collectDates_nil_of_values_nil (header : List String)
    (rows : List (List String)) (h : dateValuesOf header rows = []) :
    collectDates header rows [] = [] := by
  rw [List.eq_nil_iff_forall_not_mem]
  intro v hv
  rw [mem_collectDates] at hv
  rcases hv with hv | hv
  · simp at hv
  · rw [h] at hv; simp at hv

/-- Claim C6 (confirmed): for a tab-delimited file with a `Date` header
column, `get_date_range` considers exactly the distinct `Date` values
whose first character is a digit (footer rows like `"Total"` are skipped),
and returns the minimum and maximum of that set under lexicographic
(code-point) string ordering; a missing/unreadable file, an empty file, or
a file with no qualifying value yields the sentinel `("-", "-")` — and the
function is total, so it never raises. -/
theorem c6_date_range :
    get_date_range none = ("-", "-")
    ∧ get_date_range (some []) = ("-", "-")
    ∧ ∀ (header : List String) (rows : List (List String)),
        (dateValuesOf header rows = [] →
          get_date_range (some (header :: rows)) = ("-", "-"))
        ∧ ∀ v ∈ dateValuesOf header rows,
            (get_date_range (some (header :: rows))).1 ∈ dateValuesOf header rows
            ∧ (get_date_range (some (header :: rows))).2 ∈ dateValuesOf header rows
            ∧ strle (get_date_range (some (header :: rows))).1 v
            ∧ strle v (get_date_range (some (header :: rows))).2 := by
  refine ⟨rfl, rfl, ?_⟩
  intro header rows
  constructor
  · intro h
    have hc := collectDates_nil_of_values_nil header rows h
    simp [get_date_range, hc, sortStrings]
  · intro v hv
    have hv' : v ∈ collectDates header rows [] := by
      rw [mem_collectDates]
      exact Or.inr hv
    have hvs : v ∈ sortStrings (collectDates header rows []) := by
      rw [mem_sortStrings]
      exact hv'
    cases hs : sortStrings (collectDates header rows []) with
    | nil => rw [hs] at hvs; simp at hvs
    | cons d ds =>
      have hchain : List.Chain' strle (d :: ds) := hs ▸ sortStrings_chain' _
      have hmemd : d ∈ dateValuesOf header rows := by
        have : d ∈ sortStrings (collectDates header rows []) := by
          rw [hs]; exact List.mem_cons_self d ds
        rw [mem_sortStrings, mem_collectDates] at this
        rcases this with h | h
        · simp at h
        · exact h
      have hmeml : ds.getLastD d ∈ dateValuesOf header rows := by
        have : ds.getLastD d ∈ sortStrings (collectDates header rows []) := by
          rw [hs]; exact getLastD_mem_cons ds d
        rw [mem_sortStrings, mem_collectDates] at this
        rcases this with h | h
        · simp at h
        · exact h
      have hrange : get_date_range (some (header :: rows)) = (d, ds.getLastD d) := by
        simp [get_date_range, hs]
      rw [hrange]
      rw [hs] at hvs
      exact ⟨hmemd, hmeml, chain'_head_le ds d hchain v hvs,
        chain'_le_last ds d hchain v hvs⟩

/-- Witness for `c6_date_range` on the specification's own example: rows
`2024-01-05`, `2024-01-01` and a `Total` footer give the range
`("2024-01-01", "2024-01-05")`. -/
theorem c6_date_range_witness :
    (get_date_range (some [["Date", "Units"], ["2024-01-05", "1"],
        ["2024-01-01", "2"], ["Total", "3"]])).1
      ∈ dateValuesOf ["Date", "Units"] [["2024-01-05", "1"],
        ["2024-01-01", "2"], ["Total", "3"]]
    ∧ (get_date_range (some [["Date", "Units"], ["2024-01-05", "1"],
        ["2024-01-01", "2"], ["Total", "3"]])).2
      ∈ dateValuesOf ["Date", "Units"] [["2024-01-05", "1"],
        ["2024-01-01", "2"], ["Total", "3"]]
    ∧ strle (get_date_range (some [["Date", "Units"], ["2024-01-05", "1"],
        ["2024-01-01", "2"], ["Total", "3"]])).1 "2024-01-01"
    ∧ strle "2024-01-01" (get_date_range (some [["Date", "Units"],
        ["2024-01-05", "1"], ["2024-01-01", "2"], ["Total", "3"]])).2 :=
  (c6_date_range.2.2 ["Date", "Units"]
    [["2024-01-05", "1"], ["2024-01-01", "2"], ["Total", "3"]]).2
    "2024-01-01" (by decide)

/-! ### Claims C9 and C10: `WeeklySyncJob._download_firebase` -/

/-- Python `needle in hay` on strings (substring containment),
helper over character lists. -/
def listIsSub : List Char → List Char → Bool
  | needle, [] => listIsPrefix needle []
  | needle, c :: rest => listIsPrefix needle (c :: rest) || listIsSub needle rest

/-- Python `needle in hay` for strings. -/
def strContains (hay needle : String) : Bool := listIsSub needle.data hay.data

/-- A Python method as seen by the dispatch code: its parameter names and
its `__code__.co_varnames` (parameter names followed by local variable
names — the attribute the code actually inspects). -/
structure PyMethod where
  params : List String
  coVarnames : List String
  deriving Repr, DecidableEq

/-- The methods defined on `firebase_analytics.FirebaseAnalytics`, keyed
by name, with their parameter names and `co_varnames` transcribed from
the source. -/
def firebaseMethods : List (String × PyMethod) :=
  [("__init__",
    ⟨["self", "credentials_file", "project_id", "dataset"],
     ["self", "credentials_file", "project_id", "dataset"]⟩),
   ("_connect", ⟨["self"], ["self", "credentials"]⟩),
   ("_run_query", ⟨["self", "query"], ["self", "query", "result", "e"]⟩),
   ("get_events_summary",
    ⟨["self", "days", "limit"],
     ["self", "days", "limit", "end_date", "start_date", "query"]⟩),
   ("get_daily_active_users",
    ⟨["self", "days"], ["self", "days", "end_date", "start_date", "query"]⟩),
   ("get_user_retention", ⟨["self", "days"], ["self", "days", "query"]⟩),
   ("get_screen_views",
    ⟨["self", "days"], ["self", "days", "end_date", "start_date", "query"]⟩),
   ("get_user_properties",
    ⟨["self", "days"], ["self", "days", "end_date", "start_date", "query"]⟩),
   ("export_to_csv",
    ⟨["self", "data", "output_path", "filename"],
     ["self", "data", "output_path", "filename", "file_path", "row", "key",
      "value", "f", "writer"]⟩)]

/-- `getattr(firebase, name, None)` restricted to the methods above. -/
def getattrFirebase (nm : String) : Option PyMethod :=
  (firebaseMethods.find? fun e => e.1 = nm).map (·.2)

/-- The two-step lookup of `_download_firebase`: `getattr` on the listed
name, and on failure a fallback `getattr` that maps any name containing
`"retention"` to `get_user_retention` (and retries the same name
otherwise). -/
def resolve_method (nm : String) : Option PyMethod :=
  match getattrFirebase nm with
  | some m => some m
  | none =>
      getattrFirebase
        (if strContains nm "retention" = true then "get_user_retention" else nm)

/-- `method(days=days) if "days" in method.__code__.co_varnames else
method()`: `some days` models the `days=days` keyword call, `none` the
zero-argument call. -/
def call_days_arg (m : PyMethod) (days : Nat) : Option Nat :=
  if "days" ∈ m.coVarnames then some days else none

/-- The fixed list of secondary-analytics reports from
`_download_firebase`: (method name, filename, description, days). -/
def firebase_reports : List (String × String × String × Nat) :=
  [("get_events_summary", "firebase_events_summary.csv", "Events Summary", 30),
   ("get_daily_active_users", "firebase_daily_users.csv", "Daily Active Users", 30),
   ("get_retention", "firebase_retention.csv", "User Retention", 30),
   ("get_screen_views", "firebase_screens.csv", "Screen Views", 30),
   ("get_user_properties", "firebase_user_properties.csv", "User Properties", 30)]

/-- Claim C9 (confirmed): every entry of the five-report list resolves to
a method by runtime name lookup — with the listed name `"get_retention"`
resolving through the fallback to the existing method
`get_user_retention` — and the resolved method is invoked with `days=30`
exactly when `days` appears among its parameter names (which, for all
five resolved methods, coincides with the inspected `co_varnames` test),
otherwise with no arguments. -/
theorem c9_dynamic_dispatch :
    (∀ r ∈ firebase_reports, ∃ m : PyMethod,
        resolve_method r.1 = some m
        ∧ (call_days_arg m r.2.2.2 = some 30 ↔ "days" ∈ m.params)
        ∧ ("days" ∉ m.coVarnames → call_days_arg m r.2.2.2 = none))
    ∧ resolve_method "get_retention" = getattrFirebase "get_user_retention" := by
  constructor
  · intro r hr
    simp only [firebase_reports, List.mem_cons, List.mem_singleton,
      List.not_mem_nil, or_false] at hr
    rcases hr with rfl | rfl | rfl | rfl | rfl <;>
      exact ⟨_, rfl, by decide, by decide⟩
  · decide

/-- Witness for `c9_dynamic_dispatch` at the first listed report. -/
theorem c9_dynamic_dispatch_witness :
    ∃ m : PyMethod,
      resolve_method "get_events_summary" = some m
      ∧ (call_days_arg m 30 = some 30 ↔ "days" ∈ m.params)
      ∧ ("days" ∉ m.coVarnames → call_days_arg m 30 = none) :=
  c9_dynamic_dispatch.1
    ("get_events_summary", "firebase_events_summary.csv", "Events Summary", 30)
    (by decide)

/-- What one secondary-analytics query/export can observably do: raise
(caught at the entry boundary), return no data (nothing exported), or
succeed with an exported file of the given stat size, timestamp and
content rows.  The exported rows are carried only to show the outcome
record never depends on them. -/
inductive FbRes where
  | raises (msg : String)
  | noData
  | success (size : Nat) (time : String) (rows : List (List String))

/-- The record `_download_firebase` appends to `self.downloaded` on a
successful export: date range hard-coded to the sentinel `("-", "-")`,
`source` tag `"firebase"`. -/
def mkFbRec (filename : String) (size : Nat) (time : String) : OutcomeRec :=
  ⟨filename, size, time, "-", "-", some "firebase"⟩

/-- The `for method_name, filename, description, days in firebase_reports`
loop: an entry contributes a record only when its method resolves and the
query returns data and the export succeeds; `get_date_range` is never
called on the exported file. -/
def download_firebase (env : String → FbRes) :
    List (String × String × String × Nat) → List OutcomeRec
  | [] => []
  | e :: rest =>
    (match resolve_method e.1 with
     | none => []
     | some _ =>
       match env e.1 with
       | .raises _ => []
       | .noData => []
       | .success size time _ => [mkFbRec e.2.1 size time]) ++
    download_firebase env rest

theorem download_firebase_fields (env : String → FbRes) :
    ∀ (entries : List (String × String × String × Nat)) (r : OutcomeRec),
      r ∈ download_firebase env entries →
        r.oldest = "-" ∧ r.newest = "-" ∧ r.source = some "firebase" := by
  intro entries
  induction entries with
  | nil => intro r hr; simp [download_firebase] at hr
  | cons e rest ih =>
    intro r hr
    simp only [download_firebase, List.mem_append] at hr
    rcases hr with hr | hr
    · cases hres : resolve_method e.1 with
      | none => rw [hres] at hr; simp at hr
      | some m =>
        rw [hres] at hr
        cases henv : env e.1 with
        | raises m2 => rw [henv] at hr; simp at hr
        | noData => rw [henv] at hr; simp at hr
        | success size time rows =>
          rw [henv] at hr
          simp only [List.mem_singleton] at hr
          subst hr
          exact ⟨rfl, rfl, rfl⟩
    · exact ih r hr

/-- Claim C10 (confirmed): every outcome record produced by the
secondary-analytics download path carries the sentinel date range
`oldest = "-"`, `newest = "-"` (and the `"firebase"` source tag),
regardless of what the exported file contains — date-range extraction is
never applied to these artifacts. -/
theorem c10_firebase_sentinel_range :
    ∀ (env : String → FbRes) (r : OutcomeRec),
      r ∈ download_firebase env firebase_reports →
        r.oldest = "-" ∧ r.newest = "-" ∧ r.source = some "firebase" :=
  fun env r hr => download_firebase_fields env firebase_reports r hr

/-- Witness for `c10_firebase_sentinel_range`: a successful export whose
file rows do contain a digit-leading `Date` column still yields the
sentinel range. -/
theorem c10_firebase_sentinel_range_witness :
    (mkFbRec "firebase_events_summary.csv" 10 "12:00").oldest = "-"
    ∧ (mkFbRec "firebase_events_summary.csv" 10 "12:00").newest = "-"
    ∧ (mkFbRec "firebase_events_summary.csv" 10 "12:00").source = some "firebase" :=
  c10_firebase_sentinel_range
    (fun _ => FbRes.success 10 "12:00" [["Date", "x"], ["2024-01-01", "1"]])
    (mkFbRec "firebase_events_summary.csv" 10 "12:00")
    (by decide)

end Indlovu
